import Mathlib

/-!
Verification of the in-memory blockchain node of `dapptools-rs`: a shallow
embedding of the `anvil` backend (`src/anvil/src/eth/backend/mem/mod.rs`), its
RPC error mapping (`src/anvil/src/eth/error.rs`, `src/node/src/eth/error.rs`)
and the forked state backend
(`src/evm-adapters/src/sputnik/forked_backend.rs`), together with theorems
about gas accounting, log indexing, fork-aware log queries, transaction
validation, the blockchain-store invariant and the state setters/getters.

Machine integers are modelled as `Nat` with explicit `2 ^ 256` / `2 ^ 64`
bounds where overflow or truncation matters.  Maps are modelled as total
functions into `Option`.  Code of the repository that is not under `src/`
(the transaction executor, the blockchain storage container, the fork client,
`anvil_core` transaction accessors and the `anvil_rpc` error constructors) is
modelled from the specification; every such definition carries a doc comment
starting with `Modelled from the spec:`.
-/

namespace Anvil

/-- Size bound of 256-bit machine words (`U256`): a word is a `Nat < wordSize`. -/
def wordSize : Nat := 2 ^ 256

/-- Size bound of 64-bit machine words (`u64`). -/
def word64Size : Nat := 2 ^ 64

/-- `U256::checked_add`: `some (a + b)` unless the sum leaves the 256-bit range. -/
def checkedAdd (a b : Nat) : Option Nat :=
  if a + b < wordSize then some (a + b) else none

/-- `U256::saturating_add`: the sum, clamped to the largest 256-bit word. -/
def saturatingAdd (a b : Nat) : Nat :=
  min (a + b) (wordSize - 1)

/-- `u64::try_from(u256).unwrap_or(u64::MAX)`: truncation used by
`Backend::set_nonce` and `Backend::best_number`. -/
def toU64Saturating (a : Nat) : Nat :=
  min a (word64Size - 1)

/-- `revm` account metadata, as returned by `Db::basic`: nonce, balance and
(optional) code.  Addresses, code bytes and storage words are abstracted to
`Nat`. -/
structure AccountInfo where
  nonce : Nat
  balance : Nat
  code : Option (List Nat)
deriving DecidableEq, Repr

/-- The default (absent) account: `Db::basic` of an untouched address. -/
def AccountInfo.empty : AccountInfo :=
  { nonce := 0, balance := 0, code := none }

/-- The local state database (`Db` / `CacheDB`): account metadata and contract
storage, total with the empty-account default so that reads never fail
locally. -/
structure Db where
  accounts : Nat → AccountInfo
  storageOf : Nat → Nat → Nat

/-- `Db::basic`. -/
def Db.basic (db : Db) (address : Nat) : AccountInfo :=
  db.accounts address

/-- `Db::storage`. -/
def Db.storage (db : Db) (address slot : Nat) : Nat :=
  db.storageOf address slot

/-- `Db::set_balance`. -/
def Db.setBalance (db : Db) (address balance : Nat) : Db :=
  { db with accounts := fun a =>
      if a = address then { db.accounts a with balance := balance } else db.accounts a }

/-- `Db::set_nonce` as called by `Backend::set_nonce`: the `U256` nonce is
converted with `try_into().unwrap_or(u64::MAX)`. -/
def Db.setNonce (db : Db) (address nonce : Nat) : Db :=
  { db with accounts := fun a =>
      if a = address then { db.accounts a with nonce := toU64Saturating nonce }
      else db.accounts a }

/-- `Db::set_code`. -/
def Db.setCode (db : Db) (address : Nat) (code : List Nat) : Db :=
  { db with accounts := fun a =>
      if a = address then { db.accounts a with code := some code } else db.accounts a }

/-- `Db::set_storage_at`. -/
def Db.setStorageAt (db : Db) (address slot val : Nat) : Db :=
  { db with storageOf := fun a s =>
      if a = address ∧ s = slot then val else db.storageOf a s }

/-- The empty database: every account absent, every slot zero. -/
def Db.empty : Db :=
  { accounts := fun _ => AccountInfo.empty, storageOf := fun _ _ => 0 }

/-- Modelled from the spec: a pending pool transaction as seen by
`Backend::validate_transaction`.  `nonce` and `value` are the transaction's
fields; `maxCost` is the 256-bit word returned by `tx.max_cost()` of
`anvil_core` (not under `src/`), `max_cost = gas_limit × effective_cap`. -/
structure PendingTx where
  nonce : Nat
  value : Nat
  maxCost : Nat
deriving DecidableEq, Repr

/-- `InvalidTransactionError` of `src/anvil/src/eth/error.rs`. -/
inductive InvalidTransactionError where
  | Payment
  | Outdated
  | NonceTooHigh
  | NonceTooLow
  | NonceMax
  | GasTooHigh
  | GasTooLow
  | Revert (data : Option (List Nat))
  | ExhaustsGasResources
  | OutOfGas (gas : Nat)
  | FeeTooLow
  | InvalidChainId
  | IncompatibleEIP155
deriving DecidableEq, Repr

/-- `Backend::validate_transaction`: nonce check, then
`req_funds = max_cost.checked_add(value)`, then the balance check; every
failure is `InvalidTransactionError::Payment`. -/
def validateTransaction (account : AccountInfo) (tx : PendingTx) :
    Except InvalidTransactionError Unit :=
  if tx.nonce < account.nonce then .error .Payment
  else
    match checkedAdd tx.maxCost tx.value with
    | none => .error .Payment
    | some reqFunds =>
      if account.balance < reqFunds then .error .Payment else .ok ()

example : validateTransaction ⟨0, 10, none⟩ ⟨0, 3, 4⟩ = .ok () := rfl
example : validateTransaction ⟨5, 10, none⟩ ⟨0, 3, 4⟩ = .error .Payment := rfl
example : validateTransaction ⟨0, 10, none⟩ ⟨0, 3, 8⟩ = .error .Payment := rfl

/-- A raw log as stored in `TransactionInfo::logs` and in receipts. -/
structure RawLog where
  address : Nat
  topics : List Nat
  data : List Nat
deriving DecidableEq, Repr

/-- An RPC `ethers::types::Log` (the fields the embedded code fills). -/
structure Log where
  address : Nat
  topics : List Nat
  data : List Nat
  blockHash : Option Nat
  blockNumber : Option Nat
  transactionHash : Option Nat
  transactionIndex : Option Nat
  logIndex : Option Nat
  transactionLogIndex : Option Nat
  removed : Option Bool
deriving DecidableEq, Repr

/-- An `anvil_core` log `Filter`: optional block hash, optional range bounds,
an optional address set and optional per-position topic sets. -/
structure Filter where
  blockHash : Option Nat
  fromBlock : Option Nat
  toBlock : Option Nat
  address : Option (List Nat)
  topics : Option (List (Option (List Nat)))
deriving DecidableEq, Repr

/-- Modelled from the spec: `FilteredParams::filter_address` (not under
`src/`) — the log's address must belong to the filter's address set. -/
def filterAddress (addrs : List Nat) (log : Log) : Bool :=
  addrs.contains log.address

/-- Modelled from the spec: `FilteredParams::filter_topics` (not under
`src/`) — a log matches iff it has at least as many topics as the filter
specifies and, at every specified position, its topic is in that position's
set; a position set to null is a wildcard. -/
def filterTopics (tf : List (Option (List Nat))) (log : Log) : Bool :=
  decide (tf.length ≤ log.topics.length) &&
    (List.zip tf log.topics).all fun pt =>
      match pt.1 with
      | none => true
      | some s => s.contains pt.2

/-- The address/topics match test inside `Backend::mined_logs_for_block`. -/
def logIsMatch (filter : Filter) (log : Log) : Bool :=
  match filter.address, filter.topics with
  | some addrs, some tf => filterAddress addrs log && filterTopics tf log
  | some addrs, none => filterAddress addrs log
  | none, some tf => filterTopics tf log
  | none, none => true

/-- Block header (the fields the embedded operations read). -/
structure Header where
  parentHash : Nat
  number : Nat
  timestamp : Nat
  gasUsed : Nat
deriving DecidableEq, Repr

/-- Modelled from the spec: `hash = keccak(rlp(header))`, modelled as an
injective encoding of the header fields. -/
def Header.hash (h : Header) : Nat :=
  Nat.pair h.parentHash (Nat.pair h.number (Nat.pair h.timestamp h.gasUsed))

/-- The shape of a `TypedTransaction` the backend consumes: its
(domain-separated keccak, here opaque) hash and its fee fields. -/
inductive TxKind where
  | legacy (gasPrice : Nat)
  | eip2930 (gasPrice : Nat)
  | eip1559 (maxPriorityFeePerGas : Nat)
deriving DecidableEq, Repr

structure TypedTransaction where
  hash : Nat
  kind : TxKind
deriving DecidableEq, Repr

structure Block where
  header : Header
  transactions : List TypedTransaction
deriving DecidableEq, Repr

/-- Modelled from the spec: `TransactionInfo` of `anvil_core` (not under
`src/`) — `{tx_hash, tx_index_in_block, contract_address?, logs}`. -/
structure TransactionInfo where
  transactionHash : Nat
  transactionIndex : Nat
  logs : List RawLog
  contractAddress : Option Nat
deriving DecidableEq, Repr

/-- Modelled from the spec: a stored `EIP658Receipt` of `anvil_core` (not
under `src/`) — status, per-transaction `gas_used`, bloom and logs. -/
structure EIP658Receipt where
  statusCode : Nat
  gasUsed : Nat
  logsBloom : Nat
  logs : List RawLog
deriving DecidableEq, Repr

/-- `MinedTransaction` of `src/anvil/src/eth/backend/mem/mod.rs`. -/
structure MinedTransaction where
  info : TransactionInfo
  receipt : EIP658Receipt
  blockHash : Nat
deriving DecidableEq, Repr

/-- Modelled from the spec: the Blockchain Store state of §3 (the `storage`
module is not under `src/`): best hash/number, genesis hash, blocks by hash,
hash by height and the mined-transaction index. -/
structure Storage where
  bestHash : Nat
  bestNumber : Nat
  genesisHash : Nat
  blocks : Nat → Option Block
  hashes : Nat → Option Nat
  transactions : Nat → Option MinedTransaction

/-- The bare RPC log built at the top of the per-log loop of
`Backend::mined_logs_for_block` (all position fields unset). -/
def RawLog.toLog (l : RawLog) : Log :=
  { address := l.address
    topics := l.topics
    data := l.data
    blockHash := none
    blockNumber := none
    transactionHash := none
    transactionIndex := none
    logIndex := none
    transactionLogIndex := none
    removed := some false }

/-- Inner loop of `Backend::mined_logs_for_block` over one transaction's
logs: `blockLogIndex` is the per-block counter (incremented for every log,
matching or not), `txLogIndex` the position within the transaction. -/
def minedLogsForTx (filter : Filter) (blockHash blockNumber : Nat)
    (info : TransactionInfo) : Nat → Nat → List RawLog → List Log
  | _, _, [] => []
  | blockLogIndex, txLogIndex, l :: rest =>
    let log := l.toLog
    let tail :=
      minedLogsForTx filter blockHash blockNumber info (blockLogIndex + 1)
        (txLogIndex + 1) rest
    if logIsMatch filter log then
      { log with
        blockHash := some blockHash
        blockNumber := some blockNumber
        transactionHash := some info.transactionHash
        transactionIndex := some info.transactionIndex
        logIndex := some blockLogIndex
        transactionLogIndex := some txLogIndex } :: tail
    else tail

/-- Outer loop of `Backend::mined_logs_for_block`: iterate the transactions
found in the mined-transaction index, threading the per-block log counter. -/
def minedLogsForTxs (filter : Filter) (blockHash blockNumber : Nat) :
    Nat → List TransactionInfo → List Log
  | _, [] => []
  | blockLogIndex, info :: rest =>
    minedLogsForTx filter blockHash blockNumber info blockLogIndex 0 info.logs ++
      minedLogsForTxs filter blockHash blockNumber
        (blockLogIndex + info.logs.length) rest

/-- `Backend::mined_logs_for_block`. -/
def minedLogsForBlock (st : Storage) (filter : Filter) (block : Block) :
    List Log :=
  let infos :=
    block.transactions.filterMap fun tx => (st.transactions tx.hash).map (·.info)
  minedLogsForTxs filter block.header.hash block.header.number 0 infos

/-- `Backend::get_receipts`: the receipts of the given hashes that are in the
mined-transaction index, in input order. -/
def getReceipts (st : Storage) (hashes : List Nat) : List EIP658Receipt :=
  hashes.filterMap fun h => (st.transactions h).map (·.receipt)

/-- `ethers::types::TransactionReceipt` (the fields the embedded code fills). -/
structure TransactionReceipt where
  transactionHash : Nat
  transactionIndex : Nat
  blockHash : Option Nat
  blockNumber : Option Nat
  cumulativeGasUsed : Nat
  gasUsed : Option Nat
  contractAddress : Option Nat
  logs : List Log
  status : Option Nat
  logsBloom : Nat
  effectiveGasPrice : Option Nat
deriving DecidableEq, Repr

/-- `Backend::mined_transaction_receipt` (`basefee` is `Backend::base_fee()`).
The panicking indexing `block.transactions[index]` is modelled with
`List.get?`; `saturating_add` of the gas loop and the `checked_add` fallback
of the EIP-1559 effective gas price are kept. -/
def minedTransactionReceipt (st : Storage) (basefee : Nat) (hash : Nat) :
    Option TransactionReceipt := do
  let mined ← st.transactions hash
  let info := mined.info
  let receipt := mined.receipt
  let index := info.transactionIndex
  let block ← st.blocks mined.blockHash
  let receipts := getReceipts st (block.transactions.map (·.hash))
  let cumulativeGasUsed :=
    ((receipts.take index).map (·.gasUsed)).foldl saturatingAdd 0
  let cumulativeReceipts := receipts.take (index + 1)
  let transaction ← block.transactions.get? index
  let effectiveGasPrice :=
    match transaction.kind with
    | .legacy gasPrice => gasPrice
    | .eip2930 gasPrice => gasPrice
    | .eip1559 maxPriority => (checkedAdd basefee maxPriority).getD (wordSize - 1)
  let preReceiptsLogIndex :=
    if cumulativeReceipts.isEmpty then 0
    else
      ((cumulativeReceipts.take (cumulativeReceipts.length - 1)).map
        (fun _ => receipt.logs.length)).foldl (· + ·) 0
  some
    { transactionHash := info.transactionHash
      transactionIndex := info.transactionIndex
      blockHash := some mined.blockHash
      blockNumber := some block.header.number
      cumulativeGasUsed := cumulativeGasUsed
      gasUsed := some receipt.gasUsed
      contractAddress := info.contractAddress
      logs := receipt.logs.enum.map fun il =>
        { address := il.2.address
          topics := il.2.topics
          data := il.2.data
          blockHash := some mined.blockHash
          blockNumber := some block.header.number
          transactionHash := some info.transactionHash
          transactionIndex := some info.transactionIndex
          logIndex := some (preReceiptsLogIndex + il.1)
          transactionLogIndex := some il.1
          removed := none }
      status := some receipt.statusCode
      logsBloom := receipt.logsBloom
      effectiveGasPrice := some effectiveGasPrice }

/-- The single transaction of the C1 failing input. -/
def txC1 : TypedTransaction := ⟨100, .legacy 1⟩

/-- The C1 failing input's block: one transaction using 21000 gas. -/
def blockC1 : Block := ⟨⟨0, 1, 0, 21000⟩, [txC1]⟩

/-- Mined record of `txC1`: receipt with per-transaction `gas_used = 21000`. -/
def minedC1 : MinedTransaction :=
  ⟨⟨100, 0, [], none⟩, ⟨1, 21000, 0, []⟩, blockC1.header.hash⟩

/-- Storage holding exactly `blockC1`. -/
def stC1 : Storage where
  bestHash := blockC1.header.hash
  bestNumber := 1
  genesisHash := 0
  blocks := fun h => if h = blockC1.header.hash then some blockC1 else none
  hashes := fun n => if n = 1 then some blockC1.header.hash else none
  transactions := fun h => if h = 100 then some minedC1 else none

/-- Logs of the C2 failing input: transaction `101` emits two, `102` one. -/
def logA0 : RawLog := ⟨7, [], [0]⟩

def logA1 : RawLog := ⟨7, [], [1]⟩

def logB0 : RawLog := ⟨8, [], [2]⟩

def txC2a : TypedTransaction := ⟨101, .legacy 1⟩

def txC2b : TypedTransaction := ⟨102, .legacy 1⟩

/-- The C2 failing input's block: two transactions. -/
def blockC2 : Block := ⟨⟨0, 1, 0, 42000⟩, [txC2a, txC2b]⟩

def minedC2a : MinedTransaction :=
  ⟨⟨101, 0, [logA0, logA1], none⟩, ⟨1, 21000, 0, [logA0, logA1]⟩, blockC2.header.hash⟩

def minedC2b : MinedTransaction :=
  ⟨⟨102, 1, [logB0], none⟩, ⟨1, 21000, 0, [logB0]⟩, blockC2.header.hash⟩

/-- Storage holding exactly `blockC2`. -/
def stC2 : Storage where
  bestHash := blockC2.header.hash
  bestNumber := 1
  genesisHash := 0
  blocks := fun h => if h = blockC2.header.hash then some blockC2 else none
  hashes := fun n => if n = 1 then some blockC2.header.hash else none
  transactions := fun h =>
    if h = 101 then some minedC2a else if h = 102 then some minedC2b else none

/-- The trivial filter: no constraints, so every log matches. -/
def emptyFilter : Filter := ⟨none, none, none, none, none⟩

/-- C1: for all mined transactions the receipt's `cumulative_gas_used` should
equal the inclusive prefix sum of per-transaction `gas_used` over the block's
receipts.  The code sums only the receipts strictly before the transaction's
index (`receipts.iter().take(index)`): at the failing input — a block with a
single mined transaction whose receipt has `gas_used = 21000` —
`mined_transaction_receipt` returns `cumulative_gas_used = 0`, while the
prefix sum over receipts `0..=0` is `21000` (the spec's scenario S1 expects
`21000`). -/
theorem minedTransactionReceipt_cumulativeGasUsed_at_failing_input :
    (minedTransactionReceipt stC1 0 100).map (·.cumulativeGasUsed) = some 0 ∧
      (((getReceipts stC1 (blockC1.transactions.map (·.hash))).take (0 + 1)).map
          (·.gasUsed)).sum = 21000 := by
  exact ⟨by decide, by decide⟩

/-- C2: block-scoped `log_index` should equal the number of logs of the block
preceding the log in `(tx_index, tx_log_index)` order on both enumeration
paths.  In `blockC2` transaction `101` emits two logs and `102` one:
`mined_logs_for_block` assigns the third log `log_index = 2` (correct), but
`mined_transaction_receipt` of transaction `102` assigns it `log_index = 1`,
because `pre_receipts_log_index` multiplies the number of prior receipts by
the current receipt's own log count (the `|_r| logs.len()` closure ignores
each prior receipt). -/
theorem minedTransactionReceipt_logIndex_at_failing_input :
    ((minedLogsForBlock stC2 emptyFilter blockC2).map (·.logIndex) =
        [some 0, some 1, some 2]) ∧
      ((minedLogsForBlock stC2 ⟨none, none, none, some [8], none⟩ blockC2).map
          (·.logIndex) = [some 2]) ∧
      ((minedTransactionReceipt stC2 0 102).map fun r => r.logs.map (·.logIndex)) =
        some [some 1] := by
  exact ⟨by decide, by decide, by decide⟩

/-- C4: `validate_transaction` accepts a pending transaction exactly when its
nonce is at least the sender's on-chain nonce and the sender's balance covers
`max_cost + value`, the sum being computed without 256-bit overflow; every
failure is an `InvalidTransactionError`, so the transaction is rejected
before admission to the pool. -/
theorem validateTransaction_ok_iff (account : AccountInfo) (tx : PendingTx)
    (_hcost : tx.maxCost < wordSize) (_hvalue : tx.value < wordSize) :
    validateTransaction account tx = .ok () ↔
      account.nonce ≤ tx.nonce ∧ tx.maxCost + tx.value < wordSize ∧
        tx.maxCost + tx.value ≤ account.balance := by
  simp only [validateTransaction, checkedAdd]
  by_cases hn : tx.nonce < account.nonce
  · rw [if_pos hn]
    constructor
    · intro h
      exact absurd h (by simp)
    · intro h
      omega
  · rw [if_neg hn]
    by_cases hov : tx.maxCost + tx.value < wordSize
    · rw [if_pos hov]
      by_cases hb : account.balance < tx.maxCost + tx.value
      · simp only [if_pos hb]
        constructor
        · intro h
          exact absurd h (by simp)
        · intro h
          omega
      · simp only [if_neg hb]
        constructor
        · intro _
          exact ⟨by omega, hov, by omega⟩
        · intro _
          trivial
    · rw [if_neg hov]
      constructor
      · intro h
        exact absurd h (by simp)
      · intro h
        omega

/-- Witness for C4: a funded sender with matching nonce is accepted. -/
theorem validateTransaction_ok_iff_witness :
    validateTransaction ⟨0, 10, none⟩ ⟨0, 3, 4⟩ = .ok () := by
  rw [validateTransaction_ok_iff ⟨0, 10, none⟩ ⟨0, 3, 4⟩ (by norm_num [wordSize])
    (by norm_num [wordSize])]
  exact ⟨by norm_num, by norm_num [wordSize], by norm_num⟩

/-- C10: when `max_cost + value` overflows 256 bits, `validate_transaction`
rejects with `InvalidTransactionError::Payment` (via `checked_add(...).ok_or`),
so the balance check is never evaluated against a wrapped-around sum. -/
theorem validateTransaction_overflow_rejected (account : AccountInfo)
    (tx : PendingTx) (hov : wordSize ≤ tx.maxCost + tx.value) :
    validateTransaction account tx = .error .Payment := by
  by_cases hn : tx.nonce < account.nonce
  · simp [validateTransaction, if_pos hn]
  · simp only [validateTransaction, checkedAdd, if_neg hn,
      if_neg (by omega : ¬ tx.maxCost + tx.value < wordSize)]

/-- Witness for C10: a sum that reaches `2 ^ 256` is rejected as `Payment`. -/
theorem validateTransaction_overflow_rejected_witness :
    validateTransaction ⟨0, 10, none⟩ ⟨0, 1, wordSize - 1⟩ = .error .Payment :=
  validateTransaction_overflow_rejected ⟨0, 10, none⟩ ⟨0, 1, wordSize - 1⟩
    (by norm_num [wordSize])

/-- A pool transaction as carried inside pool errors (opaque payload). -/
structure PoolTransaction where
  hash : Nat
deriving DecidableEq, Repr

/-- `PoolError` of `src/anvil/src/eth/error.rs`. -/
inductive PoolError where
  | CyclicTransaction
  | ReplacementUnderpriced (tx : PoolTransaction)
  | AlreadyImported (tx : PoolTransaction)
deriving DecidableEq, Repr

/-- `FeeHistoryError` of `src/anvil/src/eth/error.rs`. -/
inductive FeeHistoryError where
  | InvalidBlockRange
deriving DecidableEq, Repr

/-- Modelled from the spec: the `anvil_rpc` error codes (not under `src/`)
used by the error mapping: `invalid_params`, `internal_error`, the
`transaction_rejected` surface of the spec, geth-style `ExecutionError` and
explicit server error codes. -/
inductive ErrorCode where
  | InvalidParams
  | InternalError
  | TransactionRejected
  | ExecutionError
  | ServerError (code : Int)
deriving DecidableEq, Repr

/-- Modelled from the spec: an `anvil_rpc` `RpcError` — code, message and
optional attached data (here: the raw revert bytes, when present). -/
structure RpcError where
  code : ErrorCode
  message : String
  data : Option (Option (List Nat))
deriving DecidableEq, Repr

/-- Modelled from the spec: `RpcError::transaction_rejected`. -/
def RpcError.transactionRejected (msg : String) : RpcError :=
  ⟨.TransactionRejected, msg, none⟩

/-- Modelled from the spec: `RpcError::invalid_params`. -/
def RpcError.invalidParams (msg : String) : RpcError :=
  ⟨.InvalidParams, msg, none⟩

/-- Modelled from the spec: `RpcError::internal_error`. -/
def RpcError.internalError : RpcError :=
  ⟨.InternalError, "Internal error", none⟩

/-- Modelled from the spec: `RpcError::internal_error_with(msg)`. -/
def RpcError.internalErrorWith (msg : String) : RpcError :=
  ⟨.InternalError, msg, none⟩

/-- The display message of each `InvalidTransactionError` variant (its
`thiserror` attribute); interpolated payloads are elided from the text. -/
def InvalidTransactionError.message : InvalidTransactionError → String
  | .Payment => "Insufficient funds for gas * price + value"
  | .Outdated => "Transaction is outdated"
  | .NonceTooHigh => "Nonce too high"
  | .NonceTooLow => "nonce too low"
  | .NonceMax => "nonce has max value"
  | .GasTooHigh => "intrinsic gas too high"
  | .GasTooLow => "intrinsic gas too low"
  | .Revert _ => "execution reverted"
  | .ExhaustsGasResources => "Insufficient funds for gas * price + value"
  | .OutOfGas _ => "Out of gas: gas required exceeds allowance"
  | .FeeTooLow => "max fee per gas less than block base fee"
  | .InvalidChainId => "invalid chain id for signer"
  | .IncompatibleEIP155 => "Incompatible EIP-155 transaction, signed for another chain"

/-- `BlockchainError` of `src/anvil/src/eth/error.rs`; payloads of external
library error types (signature, wallet, provider, database, trie errors and
the EVM exit code) are abstracted to message strings or numbers. -/
inductive BlockchainError where
  | Pool (err : PoolError)
  | NoSignerAvailable
  | ChainIdNotAvailable
  | InvalidFeeInput
  | EmptyRawTransactionData
  | FailedToDecodeSignedTransaction
  | FailedToDecodeTransaction
  | FailedToDecodeStateDump
  | SignatureError (msg : String)
  | WalletError (msg : String)
  | RpcUnimplemented
  | RpcErr (err : RpcError)
  | InvalidTransaction (err : InvalidTransactionError)
  | FeeHistory (err : FeeHistoryError)
  | ForkProvider (msg : String)
  | EvmError (ret : Nat)
  | InvalidUrl (url : String)
  | Internal (msg : String)
  | BlockOutOfRange (height requested : Nat)
  | BlockNotFound
  | DataUnavailable
  | TrieError (msg : String)
  | UintConversion (msg : String)
  | StateOverrideError (msg : String)
  | TimestampError (msg : String)
  | DatabaseError (msg : String)
  | EIP1559TransactionUnsupportedAtHardfork
  | EIP2930TransactionUnsupportedAtHardfork
deriving DecidableEq, Repr

/-- The error arm of `ToRpcResponseResult::to_rpc_result` of
`src/anvil/src/eth/error.rs`: the `RpcError` returned for each
`BlockchainError`.  The decoded revert-reason suffix of the `Revert` message
(ABI string decoding in an external library) and interpolated payloads of
other messages are elided; codes and attached data are kept. -/
def toRpcError : BlockchainError → RpcError
  | .Pool .CyclicTransaction => .transactionRejected "Cyclic transaction detected"
  | .Pool (.ReplacementUnderpriced _) =>
    .transactionRejected "replacement transaction underpriced"
  | .Pool (.AlreadyImported _) => .transactionRejected "transaction already imported"
  | .NoSignerAvailable => .invalidParams "No Signer available"
  | .ChainIdNotAvailable => .invalidParams "Chain Id not available"
  | .InvalidTransaction (.Revert data) => ⟨.ExecutionError, "execution reverted", some data⟩
  | .InvalidTransaction .GasTooLow =>
    ⟨.ServerError (-32000), InvalidTransactionError.GasTooLow.message, none⟩
  | .InvalidTransaction .GasTooHigh =>
    ⟨.ServerError (-32000), InvalidTransactionError.GasTooHigh.message, none⟩
  | .InvalidTransaction err => .transactionRejected err.message
  | .FeeHistory .InvalidBlockRange => .invalidParams "Requested block range is out of bounds"
  | .EmptyRawTransactionData => .invalidParams "Empty transaction data"
  | .FailedToDecodeSignedTransaction => .invalidParams "Failed to decode transaction"
  | .FailedToDecodeTransaction => .invalidParams "Failed to decode transaction"
  | .FailedToDecodeStateDump => .invalidParams "Failed to decode state dump"
  | .SignatureError msg => .invalidParams msg
  | .WalletError msg => .invalidParams msg
  | .RpcUnimplemented => .internalErrorWith "Not implemented"
  | .RpcErr err => err
  | .InvalidFeeInput =>
    .invalidParams "Invalid input: max_priority_fee_per_gas greater than max_fee_per_gas"
  | .ForkProvider msg => .internalErrorWith ("Fork Error: " ++ msg)
  | .EvmError _ => .internalErrorWith "EVM error"
  | .InvalidUrl url => .invalidParams ("Invalid url " ++ url)
  | .Internal msg => .internalErrorWith msg
  | .BlockOutOfRange _ _ => .invalidParams "BlockOutOfRangeError"
  | .BlockNotFound => ⟨.ServerError (-32001), "Resource not found", none⟩
  | .DataUnavailable => .internalErrorWith "Required data unavailable"
  | .TrieError msg => .internalErrorWith ("Trie error: " ++ msg)
  | .UintConversion msg => .invalidParams msg
  | .StateOverrideError msg => .invalidParams ("State override error: " ++ msg)
  | .TimestampError msg => .invalidParams ("Timestamp error: " ++ msg)
  | .DatabaseError msg => .internalErrorWith msg
  | .EIP1559TransactionUnsupportedAtHardfork =>
    .invalidParams "EIP-1559 style fee params received but not supported by the current hardfork"
  | .EIP2930TransactionUnsupportedAtHardfork =>
    .invalidParams "Access list received but not supported by the current hardfork"

end Anvil

namespace NodeCrate

/-- `PoolError` of `src/node/src/eth/error.rs`. -/
inductive PoolError where
  | CyclicTransaction
  | InvalidTransaction
  | AlreadyImported (tx : Anvil.PoolTransaction)
deriving DecidableEq, Repr

/-- `BlockchainError` of `src/node/src/eth/error.rs`. -/
inductive BlockchainError where
  | Pool (err : PoolError)
  | NoSignerAvailable
  | ChainIdNotAvailable
  | InvalidTransaction
  | EmptyRawTransactionData
  | FailedToDecodeSignedTransaction
  | SignatureError (msg : String)
  | RpcUnimplemented
deriving DecidableEq, Repr

/-- The error arm of `ToRpcResponseResult::to_rpc_result` of
`src/node/src/eth/error.rs`: every pool error maps to `internal_error`. -/
def toRpcError : BlockchainError → Anvil.RpcError
  | .Pool _ => .internalError
  | .NoSignerAvailable => .invalidParams "No Signer available"
  | .ChainIdNotAvailable => .invalidParams "Chain Id not available"
  | .InvalidTransaction => .invalidParams "Invalid transaction"
  | .EmptyRawTransactionData => .invalidParams "Empty transaction data"
  | .FailedToDecodeSignedTransaction => .invalidParams "Failed to decode transaction"
  | .SignatureError msg => .invalidParams msg
  | .RpcUnimplemented => .internalErrorWith "Not implemented"

end NodeCrate

namespace Anvil

/-- C5 counterexample: the pre-admission gas-too-low invalidity error does
not surface as `transaction_rejected` — the anvil mapping returns a `-32000`
server error, and the node-crate mapping sends every pool rejection
(including cyclic) to `internal_error`. -/
theorem toRpcError_gasTooLow_not_transactionRejected :
    (toRpcError (.InvalidTransaction .GasTooLow)).code = .ServerError (-32000) ∧
      (toRpcError (.InvalidTransaction .GasTooLow)).code ≠ .TransactionRejected ∧
      (NodeCrate.toRpcError (.Pool .CyclicTransaction)).code = .InternalError := by
  exact ⟨rfl, by decide, rfl⟩

/-- C5 (amended): in the anvil mapping every pool rejection surfaces as
`transaction_rejected`, and so does every `InvalidTransactionError` variant
other than `GasTooLow` and `GasTooHigh` (which surface as server error
`-32000`) and `Revert` (which surfaces as `ExecutionError`); the node-crate
mapping instead sends every pool error to `internal_error`. -/
theorem toRpcError_transactionRejected_amended :
    (∀ e : PoolError, (toRpcError (.Pool e)).code = .TransactionRejected) ∧
      (∀ e : InvalidTransactionError, e ≠ .GasTooLow → e ≠ .GasTooHigh →
        (∀ d, e ≠ .Revert d) →
        (toRpcError (.InvalidTransaction e)).code = .TransactionRejected) ∧
      (toRpcError (.InvalidTransaction .GasTooLow)).code = .ServerError (-32000) ∧
      (toRpcError (.InvalidTransaction .GasTooHigh)).code = .ServerError (-32000) ∧
      (∀ d, (toRpcError (.InvalidTransaction (.Revert d))).code = .ExecutionError) ∧
      (∀ e : NodeCrate.PoolError,
        (NodeCrate.toRpcError (.Pool e)).code = .InternalError) := by
  refine ⟨?_, ?_, rfl, rfl, fun d => rfl, ?_⟩
  · intro e
    cases e <;> rfl
  · intro e h1 h2 h3
    cases e with
    | Payment => rfl
    | Outdated => rfl
    | NonceTooHigh => rfl
    | NonceTooLow => rfl
    | NonceMax => rfl
    | GasTooHigh => exact absurd rfl h2
    | GasTooLow => exact absurd rfl h1
    | Revert d => exact absurd rfl (h3 d)
    | ExhaustsGasResources => rfl
    | OutOfGas g => rfl
    | FeeTooLow => rfl
    | InvalidChainId => rfl
    | IncompatibleEIP155 => rfl
  · intro e
    cases e <;> rfl

/-- Witness for C5 (amended): a cyclic pool rejection and a fee-too-low
invalidity both surface as `transaction_rejected`. -/
theorem toRpcError_transactionRejected_amended_witness :
    (toRpcError (.Pool .CyclicTransaction)).code = .TransactionRejected ∧
      (toRpcError (.InvalidTransaction .FeeTooLow)).code = .TransactionRejected :=
  ⟨toRpcError_transactionRejected_amended.1 .CyclicTransaction,
    toRpcError_transactionRejected_amended.2.1 .FeeTooLow (by decide) (by decide)
      (fun d h => InvalidTransactionError.noConfusion h)⟩

/-- `ethers::types::BlockNumber` block specifiers. -/
inductive BlockNumber where
  | Latest
  | Earliest
  | Pending
  | Number (n : Nat)
deriving DecidableEq, Repr

/-- The chain environment (`revm::Env`) fields the backend reads: the current
block number and the basefee. -/
structure Env where
  blockNumber : Nat
  basefee : Nat
deriving DecidableEq, Repr

/-- Modelled from the spec: the Fork Client (`ClientFork`, not under `src/`)
— the pinned fork block plus remote read oracles for the operations the
backend delegates: logs by filter and per-height balance, nonce, code and
storage. -/
structure ClientFork where
  blockNumber : Nat
  blockHash : Nat
  servedLogs : Filter → List Log
  remoteBalance : Nat → Nat → Nat
  remoteNonce : Nat → Nat → Nat
  remoteCode : Nat → Nat → List Nat
  remoteStorage : Nat → Nat → Nat → Nat

/-- Modelled from the spec: a height predates the fork iff it is at most the
fork block number (§3: a height `n` predates the fork iff
`n ≤ fork_block_number`). -/
def ClientFork.predatesFork (f : ClientFork) (n : Nat) : Bool :=
  n ≤ f.blockNumber

/-- The backend state (`Backend` of `mem/mod.rs`): local database, blockchain
storage, chain env and the optional fork client. -/
structure Backend where
  db : Db
  storage : Storage
  env : Env
  fork : Option ClientFork

/-- `Backend::best_number`: the env block number, truncated to `u64`. -/
def Backend.bestNumber (b : Backend) : Nat :=
  toU64Saturating b.env.blockNumber

/-- `Backend::convert_block_number`: `Latest` and `Pending` resolve to the
best number, `Earliest` to `0`. -/
def Backend.convertBlockNumber (b : Backend) (block : Option BlockNumber) : Nat :=
  match block.getD .Latest with
  | .Latest => b.bestNumber
  | .Pending => b.bestNumber
  | .Earliest => 0
  | .Number n => n

/-- `Backend::get_block`: `Latest` reads the best hash, `Earliest` the
genesis hash, a number goes through the height index — and `Pending` returns
`None`. -/
def getBlock (st : Storage) (number : BlockNumber) : Option Block :=
  match number with
  | .Latest => st.blocks st.bestHash
  | .Earliest => st.blocks st.genesisHash
  | .Pending => none
  | .Number n => (st.hashes n).bind st.blocks

/-- `Backend::set_balance`. -/
def Backend.setBalance (b : Backend) (address balance : Nat) : Backend :=
  { b with db := b.db.setBalance address balance }

/-- `Backend::set_nonce` (the `u64` truncation sits in `Db.setNonce`). -/
def Backend.setNonce (b : Backend) (address nonce : Nat) : Backend :=
  { b with db := b.db.setNonce address nonce }

/-- `Backend::set_code`. -/
def Backend.setCode (b : Backend) (address : Nat) (code : List Nat) : Backend :=
  { b with db := b.db.setCode address code }

/-- `Backend::set_storage_at`. -/
def Backend.setStorageAt (b : Backend) (address slot val : Nat) : Backend :=
  { b with db := b.db.setStorageAt address slot val }

/-- `Backend::current_balance`. -/
def Backend.currentBalance (b : Backend) (address : Nat) : Nat :=
  (b.db.basic address).balance

/-- `Backend::current_nonce`. -/
def Backend.currentNonce (b : Backend) (address : Nat) : Nat :=
  (b.db.basic address).nonce

/-- `Backend::get_balance`: delegated to the fork when the resolved height
predates the fork, otherwise the local balance. -/
def Backend.getBalance (b : Backend) (address : Nat) (block : Option BlockNumber) : Nat :=
  let number := b.convertBlockNumber block
  match b.fork with
  | some fork =>
    if fork.predatesFork number then fork.remoteBalance address number
    else b.currentBalance address
  | none => b.currentBalance address

/-- `Backend::get_nonce`: same fork delegation as `get_balance`. -/
def Backend.getNonce (b : Backend) (address : Nat) (block : Option BlockNumber) : Nat :=
  let number := b.convertBlockNumber block
  match b.fork with
  | some fork =>
    if fork.predatesFork number then fork.remoteNonce address number
    else b.currentNonce address
  | none => b.currentNonce address

/-- `Backend::get_code`: the fork is consulted when the height predates the
fork or there is no local code; otherwise `code.unwrap_or_default()`. -/
def Backend.getCode (b : Backend) (address : Nat) (block : Option BlockNumber) : List Nat :=
  let number := b.convertBlockNumber block
  let code := (b.db.basic address).code
  match b.fork with
  | some fork =>
    if fork.predatesFork number || code.isNone then fork.remoteCode address number
    else code.getD []
  | none => code.getD []

/-- `Backend::storage_at` (the `u256_to_h256_le` wrapping of the returned
word is a bijective byte encoding, elided: the word itself is returned). -/
def Backend.storageAt (b : Backend) (address slot : Nat) (block : Option BlockNumber) : Nat :=
  let number := b.convertBlockNumber block
  match b.fork with
  | some fork =>
    if fork.predatesFork number then fork.remoteStorage address slot number
    else b.db.storage address slot
  | none => b.db.storage address slot

/-- C8 counterexample: on the concrete storage `stC1` (holding one block
named by `best_hash`), `get_block` for `pending` returns `None` while
`get_block` for `latest` returns the block, so `pending` does not behave
exactly as `latest` on block lookup. -/
theorem getBlock_pending_ne_latest_at_counterexample :
    getBlock stC1 .Pending ≠ getBlock stC1 .Latest := by
  decide

/-- C8 (amended): the block-number conversion treats `pending` exactly as
`latest`, but the stored-block lookup `get_block` returns `None` for
`pending` (rather than the latest block), for every backend and storage. -/
theorem convertBlockNumber_pending_eq_latest (b : Backend) (st : Storage) :
    b.convertBlockNumber (some .Pending) = b.convertBlockNumber (some .Latest) ∧
      getBlock st .Pending = none :=
  ⟨rfl, rfl⟩

/-- A fork pinned at height 1 whose remote state has balance 100, nonce 55,
code `[9]` and storage word 42 everywhere: the remote side of the C9
fork-startup counterexample. -/
def forkC9 : ClientFork where
  blockNumber := 1
  blockHash := 9
  servedLogs := fun _ => []
  remoteBalance := fun _ _ => 100
  remoteNonce := fun _ _ => 55
  remoteCode := fun _ _ => [9]
  remoteStorage := fun _ _ _ => 42

/-- C9 counterexample: two concrete failures of the unrestricted round-trip
claim.  First, the nonce round-trip fails for a value that does not fit in
`u64`: `set_nonce` clamps it with `try_into().unwrap_or(u64::MAX)`, so
`get_nonce` returns `2 ^ 64 - 1`, not the value set.  Second, on a freshly
forked backend (`best_number = fork_block_number = 1`, the §4.C seeding), the
latest height predates the fork, so after `set_balance(5, 7)` /
`set_code(5, [1])` / `set_storage_at(5, 1, 7)` the corresponding getters
delegate to the fork and return the remote values 100, `[9]` and 42 instead
of the values set. -/
theorem set_get_roundtrip_fails_at_counterexample :
    (((Backend.mk Db.empty stC1 ⟨1, 0⟩ none).setNonce 5 word64Size).getNonce 5 none ≠
      word64Size) ∧
      (((Backend.mk Db.empty stC1 ⟨1, 0⟩ (some forkC9)).setBalance 5 7).getBalance 5
          none = 100 ∧ (100 : Nat) ≠ 7) ∧
      (((Backend.mk Db.empty stC1 ⟨1, 0⟩ (some forkC9)).setCode 5 [1]).getCode 5
          none = [9] ∧ ([9] : List Nat) ≠ [1]) ∧
      (((Backend.mk Db.empty stC1 ⟨1, 0⟩ (some forkC9)).setStorageAt 5 1 7).storageAt 5 1
          none = 42 ∧ (42 : Nat) ≠ 7) := by
  exact ⟨by decide, ⟨by decide, by decide⟩, ⟨by decide, by decide⟩, ⟨by decide, by decide⟩⟩

/-- C9 (amended): two regimes at the default (latest) block.  When no fork is
configured, or the latest height does not predate the fork, set-then-get
round-trips hold for balance, code and storage, and the nonce round-trip
holds exactly for values that fit in `u64` (larger nonces are clamped to
`u64::MAX` by `set_nonce`).  When a fork is configured and the latest height
predates it (`best_number ≤ fork_block_number`, the fork-startup state), the
getters instead delegate to the fork and return the remote values, so the
round-trips fail there. -/
theorem set_get_roundtrips (b : Backend) (address slot v : Nat) (code : List Nat) :
    ((∀ fork, b.fork = some fork → fork.blockNumber < b.bestNumber) →
      (b.setBalance address v).getBalance address none = v ∧
        (b.setNonce address v).getNonce address none = toU64Saturating v ∧
        (v < word64Size → (b.setNonce address v).getNonce address none = v) ∧
        (b.setCode address code).getCode address none = code ∧
        (b.setStorageAt address slot v).storageAt address slot none = v) ∧
      (∀ fork, b.fork = some fork → b.bestNumber ≤ fork.blockNumber →
        (b.setBalance address v).getBalance address none =
            fork.remoteBalance address b.bestNumber ∧
          (b.setNonce address v).getNonce address none =
            fork.remoteNonce address b.bestNumber ∧
          (b.setCode address code).getCode address none =
            fork.remoteCode address b.bestNumber ∧
          (b.setStorageAt address slot v).storageAt address slot none =
            fork.remoteStorage address slot b.bestNumber) := by
  constructor
  · intro hfork
    have hnofork : ∀ fork, b.fork = some fork →
        fork.predatesFork (toU64Saturating b.env.blockNumber) = false := by
      intro fork hf
      have := hfork fork hf
      simp only [ClientFork.predatesFork, decide_eq_false_iff_not, not_le]
      exact this
    refine ⟨?_, ?_, ?_, ?_, ?_⟩
    · cases hb : b.fork with
      | none =>
        simp [Backend.getBalance, Backend.setBalance, Backend.convertBlockNumber,
          Backend.bestNumber, hb, Backend.currentBalance, Db.setBalance, Db.basic]
      | some fork =>
        simp [Backend.getBalance, Backend.setBalance, Backend.convertBlockNumber,
          Backend.bestNumber, hb, hnofork fork hb, Backend.currentBalance,
          Db.setBalance, Db.basic]
    · cases hb : b.fork with
      | none =>
        simp [Backend.getNonce, Backend.setNonce, Backend.convertBlockNumber,
          Backend.bestNumber, hb, Backend.currentNonce, Db.setNonce, Db.basic]
      | some fork =>
        simp [Backend.getNonce, Backend.setNonce, Backend.convertBlockNumber,
          Backend.bestNumber, hb, hnofork fork hb, Backend.currentNonce,
          Db.setNonce, Db.basic]
    · intro hv
      have hc : toU64Saturating v = v := by
        simp only [toU64Saturating]
        omega
      cases hb : b.fork with
      | none =>
        simp [Backend.getNonce, Backend.setNonce, Backend.convertBlockNumber,
          Backend.bestNumber, hb, Backend.currentNonce, Db.setNonce, Db.basic, hc]
      | some fork =>
        simp [Backend.getNonce, Backend.setNonce, Backend.convertBlockNumber,
          Backend.bestNumber, hb, hnofork fork hb, Backend.currentNonce,
          Db.setNonce, Db.basic, hc]
    · cases hb : b.fork with
      | none =>
        simp [Backend.getCode, Backend.setCode, Backend.convertBlockNumber,
          Backend.bestNumber, hb, Db.setCode, Db.basic]
      | some fork =>
        simp [Backend.getCode, Backend.setCode, Backend.convertBlockNumber,
          Backend.bestNumber, hb, hnofork fork hb, Db.setCode, Db.basic]
    · cases hb : b.fork with
      | none =>
        simp [Backend.storageAt, Backend.setStorageAt, Backend.convertBlockNumber,
          Backend.bestNumber, hb, Db.setStorageAt, Db.storage]
      | some fork =>
        simp [Backend.storageAt, Backend.setStorageAt, Backend.convertBlockNumber,
          Backend.bestNumber, hb, hnofork fork hb, Db.setStorageAt, Db.storage]
  · intro fork hf hpre
    have hpred : fork.predatesFork (toU64Saturating b.env.blockNumber) = true := by
      simp only [ClientFork.predatesFork, decide_eq_true_eq]
      simpa [Backend.bestNumber, toU64Saturating] using hpre
    refine ⟨?_, ?_, ?_, ?_⟩
    · simp [Backend.getBalance, Backend.setBalance, Backend.convertBlockNumber,
        Backend.bestNumber, hf, hpred]
    · simp [Backend.getNonce, Backend.setNonce, Backend.convertBlockNumber,
        Backend.bestNumber, hf, hpred]
    · simp [Backend.getCode, Backend.setCode, Backend.convertBlockNumber,
        Backend.bestNumber, hf, hpred]
    · simp [Backend.storageAt, Backend.setStorageAt, Backend.convertBlockNumber,
        Backend.bestNumber, hf, hpred]

/-- The local per-height scan at the bottom of `Backend::logs_for_range`:
`for number in from..=to`, with heights lacking a stored block contributing
no logs. -/
def logsLocalRange (b : Backend) (filter : Filter) (lo hi : Nat) : List Log :=
  (List.range' lo (hi + 1 - lo)).flatMap fun n =>
    match getBlock b.storage (.Number n) with
    | some block => minedLogsForBlock b.storage filter block
    | none => []

/-- `Backend::logs_for_range`: when a fork is configured and the range start
predates it, query the fork for the adjusted sub-range and continue locally
from `fork_block_number + 1`. -/
def logsForRange (b : Backend) (filter : Filter) (lo hi : Nat) : List Log :=
  match b.fork with
  | some fork =>
    let toOnFork := if !fork.predatesFork hi then fork.blockNumber else hi
    if fork.predatesFork lo then
      fork.servedLogs { filter with fromBlock := some lo, toBlock := some toOnFork } ++
        logsLocalRange b filter (fork.blockNumber + 1) hi
    else logsLocalRange b filter lo hi
  | none => logsLocalRange b filter lo hi

/-- `Backend::logs_for_block`: the local block by hash, else the fork, else
no logs. -/
def logsForBlockHash (b : Backend) (filter : Filter) (h : Nat) : List Log :=
  match b.storage.blocks h with
  | some block => minedLogsForBlock b.storage filter block
  | none =>
    match b.fork with
    | some fork => fork.servedLogs filter
    | none => []

/-- `Backend::logs`: the block-hash form, or the range form with both bounds
defaulted to and clamped at the best number. -/
def Backend.logs (b : Backend) (filter : Filter) : List Log :=
  match filter.blockHash with
  | some h => logsForBlockHash b filter h
  | none =>
    let best := b.bestNumber
    let toBlock := min (filter.toBlock.getD best) best
    let fromBlock := min (filter.fromBlock.getD best) best
    logsForRange b filter fromBlock toBlock

/-- C3: a range-form query clamps both bounds to the best number; with a fork
configured, when the clamped `from` predates the fork the result is the fork
client's logs for `[from, min(to, fork_block_number)]` followed by the
locally-served logs for `[fork_block_number + 1, to]`, and otherwise just the
locally-served logs for `[from, to]`; the local scan serves no logs for
heights with no stored block (it is a per-height scan over `get_block`). -/
theorem logs_range_fork_split (b : Backend) (filter : Filter) (fork : ClientFork)
    (hf : b.fork = some fork) (hh : filter.blockHash = none) :
    b.logs filter =
      (if min (filter.fromBlock.getD b.bestNumber) b.bestNumber ≤ fork.blockNumber then
        fork.servedLogs { filter with
            fromBlock := some (min (filter.fromBlock.getD b.bestNumber) b.bestNumber)
            toBlock := some (min (min (filter.toBlock.getD b.bestNumber) b.bestNumber)
              fork.blockNumber) } ++
          logsLocalRange b filter (fork.blockNumber + 1)
            (min (filter.toBlock.getD b.bestNumber) b.bestNumber)
      else
        logsLocalRange b filter (min (filter.fromBlock.getD b.bestNumber) b.bestNumber)
          (min (filter.toBlock.getD b.bestNumber) b.bestNumber)) := by
  have hto :
      (if (!decide (min (filter.toBlock.getD b.bestNumber) b.bestNumber ≤ fork.blockNumber)) =
          true then fork.blockNumber
        else min (filter.toBlock.getD b.bestNumber) b.bestNumber) =
      min (min (filter.toBlock.getD b.bestNumber) b.bestNumber) fork.blockNumber := by
    by_cases h : min (filter.toBlock.getD b.bestNumber) b.bestNumber ≤ fork.blockNumber
    · rw [if_neg (by simp [h])]
      omega
    · rw [if_pos (by simp [h])]
      omega
  simp only [Backend.logs, hh, logsForRange, hf, ClientFork.predatesFork]
  rw [hto]
  by_cases hfrom : min (filter.fromBlock.getD b.bestNumber) b.bestNumber ≤ fork.blockNumber
  · rw [if_pos (by simp [hfrom]), if_pos hfrom]
  · rw [if_neg (by simp [hfrom]), if_neg hfrom]

/-- An empty block at height 2, for the C3 witness. -/
def blockW : Block := ⟨⟨0, 2, 0, 0⟩, []⟩

/-- Storage holding exactly `blockW`. -/
def stW : Storage where
  bestHash := blockW.header.hash
  bestNumber := 2
  genesisHash := 0
  blocks := fun h => if h = blockW.header.hash then some blockW else none
  hashes := fun n => if n = 2 then some blockW.header.hash else none
  transactions := fun _ => none

/-- A range filter `[0, 5]` with no address/topic constraints. -/
def filterW : Filter := ⟨none, some 0, some 5, none, none⟩

/-- A fork pinned at height 1 serving one fixed log. -/
def forkW : ClientFork where
  blockNumber := 1
  blockHash := 9
  servedLogs := fun _ => [⟨1, [], [], none, none, none, none, some 0, none, none⟩]
  remoteBalance := fun _ _ => 0
  remoteNonce := fun _ _ => 0
  remoteCode := fun _ _ => []
  remoteStorage := fun _ _ _ => 0

/-- A forked backend at best number 3 over `stW`. -/
def backendW : Backend := ⟨Db.empty, stW, ⟨3, 0⟩, some forkW⟩

/-- Witness for C3: on `backendW` the clamped range is `[0, 3]`, `0` predates
the fork, and `logs` is the fork part for `[0, 1]` followed by the local part
for `[2, 3]`. -/
theorem logs_range_fork_split_witness :
    backendW.logs filterW =
      forkW.servedLogs { filterW with fromBlock := some 0, toBlock := some 1 } ++
        logsLocalRange backendW filterW 2 3 := by
  have h := logs_range_fork_split backendW filterW forkW rfl rfl
  rw [h]
  rfl

/-- Witness for C9 (amended): concrete round-trips on a fork-less backend,
and the delegated read on a freshly forked backend. -/
theorem set_get_roundtrips_witness :
    ((Backend.mk Db.empty stC1 ⟨1, 0⟩ none).setBalance 3 77).getBalance 3 none = 77 ∧
      (((Backend.mk Db.empty stC1 ⟨1, 0⟩ none).setNonce 3 9).getNonce 3 none = 9) ∧
      ((Backend.mk Db.empty stC1 ⟨1, 0⟩ (some forkC9)).setBalance 5 7).getBalance 5 none =
        forkC9.remoteBalance 5 (Backend.mk Db.empty stC1 ⟨1, 0⟩ (some forkC9)).bestNumber := by
  have hA := (set_get_roundtrips (Backend.mk Db.empty stC1 ⟨1, 0⟩ none) 3 0 77 []).1
    (fun fork hf => Option.noConfusion hf)
  have hA9 := (set_get_roundtrips (Backend.mk Db.empty stC1 ⟨1, 0⟩ none) 3 0 9 []).1
    (fun fork hf => Option.noConfusion hf)
  have hB := (set_get_roundtrips (Backend.mk Db.empty stC1 ⟨1, 0⟩ (some forkC9)) 5 0 7 []).2
    forkC9 rfl (by decide)
  exact ⟨hA.1, hA9.2.2.1 (by norm_num [word64Size]), hB.1⟩
/-- `BlockInfo` returned by `TransactionExecutor::create_block`. -/
structure BlockInfo where
  block : Block
  transactions : List TransactionInfo
  receipts : List EIP658Receipt

/-- Modelled from the spec: `TransactionExecutor::create_block` (the executor
is not under `src/`).  Interpreter outcomes are external inputs: `results` is
the ordered list of per-transaction `(tx, info, receipt)` outcomes.  Per §4.D
the header carries `number = block_env.number`, the parent hash, the given
timestamp and `gas_used` equal to the receipts' total gas. -/
def createBlock (parentHash blockEnvNumber timestamp : Nat)
    (results : List (TypedTransaction × TransactionInfo × EIP658Receipt)) :
    BlockInfo where
  block :=
    { header :=
        { parentHash := parentHash
          number := blockEnvNumber
          timestamp := timestamp
          gasUsed := (results.map (·.2.2.gasUsed)).sum }
      transactions := results.map (·.1) }
  transactions := results.map (·.2.1)
  receipts := results.map (·.2.2)

/-- The transaction-index insertion loop at the end of `mine_block`. -/
def insertMined (txs : Nat → Option MinedTransaction)
    (pairs : List (TransactionInfo × EIP658Receipt)) (blockHash : Nat) :
    Nat → Option MinedTransaction :=
  match pairs with
  | [] => txs
  | (info, receipt) :: rest =>
    insertMined
      (fun h => if h = info.transactionHash then some ⟨info, receipt, blockHash⟩ else txs h)
      rest blockHash

/-- `Backend::mine_block`: bump the env block number (`saturating_add`),
create the block over the current best hash, make it the best block, index it
by hash and height, and insert every mined transaction.  The `as_u64`
conversion of the new height (which panics above `u64::MAX`) is the identity
on the range the theorems restrict to. -/
def mineBlock (b : Backend) (timestamp : Nat)
    (results : List (TypedTransaction × TransactionInfo × EIP658Receipt)) :
    Nat × Backend :=
  let newNumber := saturatingAdd b.env.blockNumber 1
  let info := createBlock b.storage.bestHash newNumber timestamp results
  let blockHash := info.block.header.hash
  let st := b.storage
  let storage :=
    { st with
      bestNumber := newNumber
      bestHash := blockHash
      blocks := fun h => if h = blockHash then some info.block else st.blocks h
      hashes := fun n => if n = newNumber then some blockHash else st.hashes n
      transactions := insertMined st.transactions (info.transactions.zip info.receipts) blockHash }
  (newNumber, { b with env := { b.env with blockNumber := newNumber }, storage := storage })

/-- The blockchain-store invariant of the spec (§3): every height up to the
best number resolves through the height index to a block of that height, and
every stored block is indexed back to its own hash by its height. -/
def storeInv (st : Storage) : Prop :=
  (∀ n, n ≤ st.bestNumber →
    ∃ h blk, st.hashes n = some h ∧ st.blocks h = some blk ∧ blk.header.number = n) ∧
  (∀ h blk, st.blocks h = some blk → st.hashes blk.header.number = some h)

/-- C7: a successful `mine_block` preserves the blockchain-store invariant,
and the new best number/hash name the newly inserted block.  Hypotheses: the
invariant held before, the env block number agrees with the stored best
number and the next height fits in `u64`, the mined block's hash is fresh
(block hashes are modelled as an injective header encoding, so a collision
would mean an equal header), and no stored block already carries the next
height. -/
theorem mineBlock_preserves_storeInv (b : Backend) (timestamp : Nat)
    (results : List (TypedTransaction × TransactionInfo × EIP658Receipt))
    (hinv : storeInv b.storage)
    (hsync : b.env.blockNumber = b.storage.bestNumber)
    (hrange : b.env.blockNumber + 1 < word64Size)
    (hfresh : b.storage.blocks
      (createBlock b.storage.bestHash (saturatingAdd b.env.blockNumber 1) timestamp
        results).block.header.hash = none)
    (hnum : ∀ h blk, b.storage.blocks h = some blk →
      blk.header.number ≠ b.storage.bestNumber + 1) :
    storeInv (mineBlock b timestamp results).2.storage ∧
      (mineBlock b timestamp results).2.storage.bestNumber = b.storage.bestNumber + 1 ∧
      (mineBlock b timestamp results).2.storage.blocks
          (mineBlock b timestamp results).2.storage.bestHash =
        some (createBlock b.storage.bestHash (saturatingAdd b.env.blockNumber 1)
          timestamp results).block := by
  have hsat : saturatingAdd b.env.blockNumber 1 = b.storage.bestNumber + 1 := by
    simp only [saturatingAdd, wordSize, word64Size] at *
    omega
  rw [hsat] at hfresh
  simp only [mineBlock, hsat]
  set info := createBlock b.storage.bestHash (b.storage.bestNumber + 1) timestamp results
    with hinfo
  have hinfonum : info.block.header.number = b.storage.bestNumber + 1 := by
    rw [hinfo]
    rfl
  refine ⟨⟨?_, ?_⟩, ?_, ?_⟩
  · intro n hn
    dsimp only at hn ⊢
    rcases Nat.lt_or_ge n (b.storage.bestNumber + 1) with hlt | hge
    · obtain ⟨h, blk, hh, hb, hnum2⟩ := hinv.1 n (by omega)
      refine ⟨h, blk, ?_, ?_, hnum2⟩
      · rw [if_neg (by omega)]
        exact hh
      · have hne : h ≠ info.block.header.hash := by
          intro he
          rw [he, hfresh] at hb
          exact Option.noConfusion hb
        rw [if_neg hne]
        exact hb
    · have hn1 : n = b.storage.bestNumber + 1 := by omega
      refine ⟨info.block.header.hash, info.block, ?_, ?_, ?_⟩
      · rw [if_pos hn1]
      · rw [if_pos rfl]
      · rw [hinfonum, hn1]
  · intro h blk hb
    dsimp only at hb ⊢
    by_cases he : h = info.block.header.hash
    · rw [if_pos he] at hb
      injection hb with hb
      subst hb
      rw [hinfonum, if_pos rfl, he]
    · rw [if_neg he] at hb
      rw [if_neg (hnum h blk hb)]
      exact hinv.2 h blk hb
  · dsimp only
  · dsimp only
    simp

/-- The genesis storage: one empty block at height zero. -/
def genesisBlock : Block := ⟨⟨0, 0, 0, 0⟩, []⟩

/-- Storage holding exactly the genesis block. -/
def stGen : Storage where
  bestHash := genesisBlock.header.hash
  bestNumber := 0
  genesisHash := genesisBlock.header.hash
  blocks := fun h => if h = genesisBlock.header.hash then some genesisBlock else none
  hashes := fun n => if n = 0 then some genesisBlock.header.hash else none
  transactions := fun _ => none

/-- A fresh fork-less backend over the genesis storage. -/
def backendGen : Backend := ⟨Db.empty, stGen, ⟨0, 0⟩, none⟩

/-- Witness for C7: mining an empty block on the genesis backend preserves
the invariant and installs the new block at height one. -/
theorem mineBlock_preserves_storeInv_witness :
    storeInv (mineBlock backendGen 5 []).2.storage ∧
      (mineBlock backendGen 5 []).2.storage.bestNumber = stGen.bestNumber + 1 ∧
      (mineBlock backendGen 5 []).2.storage.blocks
          (mineBlock backendGen 5 []).2.storage.bestHash =
        some (createBlock stGen.bestHash (saturatingAdd 0 1) 5 []).block := by
  have hinv : storeInv backendGen.storage := by
    constructor
    · intro n hn
      have hn' : n ≤ 0 := hn
      have hn0 : n = 0 := Nat.le_zero.mp hn'
      subst hn0
      refine ⟨genesisBlock.header.hash, genesisBlock, rfl, ?_, rfl⟩
      show (if genesisBlock.header.hash = genesisBlock.header.hash
          then some genesisBlock else none) = some genesisBlock
      rw [if_pos rfl]
    · intro h blk hb
      change (if h = genesisBlock.header.hash then some genesisBlock else none) = some blk
        at hb
      by_cases he : h = genesisBlock.header.hash
      · rw [if_pos he] at hb
        injection hb with hb
        subst hb
        rw [he]
        rfl
      · rw [if_neg he] at hb
        exact Option.noConfusion hb
  have hnum : ∀ h blk, backendGen.storage.blocks h = some blk →
      blk.header.number ≠ backendGen.storage.bestNumber + 1 := by
    intro h blk hb
    change (if h = genesisBlock.header.hash then some genesisBlock else none) = some blk
      at hb
    by_cases he : h = genesisBlock.header.hash
    · rw [if_pos he] at hb
      injection hb with hb
      subst hb
      decide
    · rw [if_neg he] at hb
      exact Option.noConfusion hb
  exact mineBlock_preserves_storeInv backendGen 5 [] hinv rfl (by decide) (by decide) hnum

end Anvil


namespace ForkMem

/-- `sputnik::backend::MemoryAccount`: a cached account of
`ForkMemoryBackend` — nonce, balance, code and a per-slot storage map. -/
structure MemoryAccount where
  nonce : Nat
  balance : Nat
  code : List Nat
  storage : Nat → Option Nat

/-- `sputnik::backend::Basic`: balance and nonce. -/
structure Basic where
  balance : Nat
  nonce : Nat
deriving DecidableEq, Repr

/-- Modelled from the spec: the blocking remote provider behind
`ForkMemoryBackend`, pinned to the fork block — `get_account` returns
`(nonce, balance, code)`, plus code and storage reads. -/
structure Provider where
  getAccount : Nat → Nat × Nat × List Nat
  getCode : Nat → List Nat
  getStorageAt : Nat → Nat → Nat

/-- The in-memory cache of `ForkMemoryBackend`
(`RefCell<BTreeMap<H160, MemoryAccount>>`). -/
def Cache := Nat → Option MemoryAccount

/-- The `cache.get_mut(&address).map(|acc| ...)` pattern of
`forked_backend.rs`: the update closure runs only when the key is already
present in the map. -/
def Cache.updateIfPresent (cache : Cache) (address : Nat)
    (f : MemoryAccount → MemoryAccount) : Cache :=
  fun a => if a = address then (cache a).map f else cache a

/-- `ForkMemoryBackend::basic` as a state-passing function on the cache: on a
hit, serve from the cache; on a miss, fetch from the provider and run the
`get_mut` update on the (still absent) key, returning the fetched values. -/
def fbBasic (p : Provider) (cache : Cache) (address : Nat) : Basic × Cache :=
  match cache address with
  | some a => (⟨a.balance, a.nonce⟩, cache)
  | none =>
    let account := p.getAccount address
    (⟨account.2.1, account.1⟩,
      cache.updateIfPresent address fun acc =>
        { acc with nonce := account.1, balance := account.2.1 })

/-- `ForkMemoryBackend::code`: same shape as `basic`. -/
def fbCode (p : Provider) (cache : Cache) (address : Nat) : List Nat × Cache :=
  match cache address with
  | some a => (a.code, cache)
  | none =>
    let code := p.getCode address
    (code, cache.updateIfPresent address fun acc => { acc with code := code })

/-- `ForkMemoryBackend::storage`: a cached slot is served from the cache and
otherwise fetched from the provider, with no cache write in either case. -/
def fbStorage (p : Provider) (cache : Cache) (address slot : Nat) : Nat × Cache :=
  match (cache address).bind fun acct => acct.storage slot with
  | some v => (v, cache)
  | none => (p.getStorageAt address slot, cache)

/-- `ForkMemoryBackend::exists`: the only operation that inserts into the
cache (`entry(address).or_insert_with(...)`), then tests non-emptiness. -/
def fbExists (p : Provider) (cache : Cache) (address : Nat) : Bool × Cache :=
  match cache address with
  | some _ => (true, cache)
  | none =>
    let r := p.getAccount address
    let a : MemoryAccount := ⟨r.1, r.2.1, r.2.2, fun _ => none⟩
    (!(a.balance == 0) || !(a.nonce == 0) || !(a.code.isEmpty),
      fun x => if x = address then some a else cache x)

/-- The C6 failing input: a provider knowing balance 100 for address 5 (and a
storage value 77 at slot 1), with the empty local cache. -/
def p6 : Provider where
  getAccount := fun a => if a = 5 then (0, 100, []) else (0, 0, [])
  getCode := fun _ => []
  getStorageAt := fun a s => if a = 5 ∧ s = 1 then 77 else 0

/-- The empty cache: nothing fetched yet. -/
def emptyCache : Cache := fun _ => none

/-- C6: a read delegated to the fork provider is NOT stored in the local
cache: `basic(5)` on the empty cache fetches balance 100 from the provider,
yet the resulting cache still has no entry for address 5 —
`cache.get_mut(&address)` on an absent key is a no-op and `storage`/`code`
never insert either — so the immediately repeated identical read hits the
provider again instead of being answered from the cache.  Only `exists`
inserts (and so provides the negative caching the claim requires of the read
operations). -/
theorem fbBasic_does_not_cache_at_failing_input :
    (fbBasic p6 emptyCache 5).1 = ⟨100, 0⟩ ∧
      (fbBasic p6 emptyCache 5).2 5 = none ∧
      (fbStorage p6 emptyCache 5 1).2 5 = none ∧
      (fbCode p6 emptyCache 5).2 5 = none ∧
      (fbBasic p6 ((fbBasic p6 emptyCache 5).2) 5).2 5 = none ∧
      (fbExists p6 emptyCache 5).2 5 ≠ none := by
  refine ⟨rfl, rfl, rfl, rfl, rfl, ?_⟩
  intro h
  exact Option.noConfusion h

end ForkMem
